import Mathlib

/-!
Verification of the Neon Sound Visualizer core pipeline
(src/components/NeonSoundVisualizer.tsx).

The audio-analysis and rendering pipeline is shallowly embedded:
JavaScript numbers are modelled as rationals, Uint8Array snapshots as
lists of naturals, the persistent refs of the component as fields of an
explicit state record, and each source function as a pure state
transformer.  Raster-surface output (canvas paint calls) is an external
effect and is not part of the state; every other side effect of the
source is reflected in the returned state.
-/

namespace NeonViz

/-- Particle record, from the `Particle` interface (lines 3-11 of the
source).  `life` is the elapsed age in ticks (a natural: it starts at 0
and is only ever incremented), all other numeric fields are rationals. -/
structure Particle where
  x : ℚ
  y : ℚ
  vx : ℚ
  vy : ℚ
  life : ℕ
  maxLife : ℚ
  color : String
deriving Repr, DecidableEq

/-- Per-tick analysis result, from the `VisualizerData` interface
(lines 13-20). -/
structure VisualizerData where
  frequencies : List ℕ
  waveform : List ℕ
  bassLevel : ℚ
  midLevel : ℚ
  trebleLevel : ℚ
  beat : Bool
deriving Repr, DecidableEq

/-- The fixed six-color neon palette from `createParticle`
(lines 135-137). -/
def colors : List String :=
  ["#00ffff", "#ff00ff", "#ffff00", "#00ff00", "#ff0080", "#8000ff"]

/-- One particle spawn consumes four uniform draws from `[0,1)`:
`Math.random()` for `vx`, `vy`, `maxLife` and the palette index
(lines 142-146). -/
structure RandDraw where
  vxRand : ℚ
  vyRand : ℚ
  lifeRand : ℚ
  colorRand : ℚ
deriving Repr, DecidableEq

/-- `createParticle(x, y, intensity)` (lines 134-148), with the four
`Math.random()` results passed explicitly. -/
def createParticle (x y intensity : ℚ) (d : RandDraw) : Particle :=
  { x := x
    y := y
    vx := (d.vxRand - 0.5) * intensity
    vy := (d.vyRand - 0.5) * intensity
    life := 0
    maxLife := 60 + d.lifeRand * 60
    color := colors.getD (Int.toNat ⌊d.colorRand * (colors.length : ℚ)⌋) "" }

/-- The per-particle body of `updateParticles` (lines 152-156):
`x += vx; y += vy; life++; vx *= 0.98; vy *= 0.98`.  Position uses the
velocity from before the drag multiplication, exactly as in the source
(the assignments to `vx`/`vy` come after the position update). -/
def advanceParticle (p : Particle) : Particle :=
  { p with
    x := p.x + p.vx
    y := p.y + p.vy
    life := p.life + 1
    vx := p.vx * 0.98
    vy := p.vy * 0.98 }

/-- `updateParticles` (lines 150-159): a `filter` whose callback first
mutates the particle and then keeps it iff `life < maxLife` (the test
reads the freshly incremented `life`). -/
def updateParticles (ps : List Particle) : List Particle :=
  ps.filterMap (fun particle =>
    let p := advanceParticle particle
    if (p.life : ℚ) < p.maxLife then some p else none)

/-- The opacity computed by `drawParticles` (line 232):
`alpha = 1 - life / maxLife`. -/
def particleAlpha (p : Particle) : ℚ :=
  1 - (p.life : ℚ) / p.maxLife

/-- `bassLevel` (lines 256, 260): mean of `frequencies.slice(0, 10)`. -/
def bassLevel (freq : List ℕ) : ℚ :=
  (((freq.take 10).map (fun (v : ℕ) => (v : ℚ))).sum) / ((freq.take 10).length : ℚ)

/-- `midLevel` (lines 257, 261): mean of `frequencies.slice(10, 50)`. -/
def midLevel (freq : List ℕ) : ℚ :=
  ((((freq.drop 10).take 40).map (fun (v : ℕ) => (v : ℚ))).sum) / (((freq.drop 10).take 40).length : ℚ)

/-- `trebleLevel` (lines 258, 262): mean of `frequencies.slice(50, 100)`. -/
def trebleLevel (freq : List ℕ) : ℚ :=
  ((((freq.drop 50).take 50).map (fun (v : ℕ) => (v : ℚ))).sum) / (((freq.drop 50).take 50).length : ℚ)

/-- Modelled from the spec, for comparison with the source definitions:
the exact arithmetic mean of the snapshot values over the absolute index
range `[a, b)`. -/
def rangeMean (freq : List ℕ) (a b : ℕ) : ℚ :=
  (((List.range (b - a)).map (fun k => (freq.getD (a + k) 0 : ℚ))).sum) / ((b - a : ℕ) : ℚ)

/-- Everything `analyzeAudio` (lines 247-280) produces: the returned
`VisualizerData` plus the new values it stores into `bassEmaRef` and
`lastBeatTsRef`. -/
structure AnalyzeResult where
  data : VisualizerData
  bassEmaAfter : ℚ
  lastBeatAfter : ℚ
deriving Repr, DecidableEq

/-- `analyzeAudio` (lines 247-280).  Returns `none` when no analyser is
installed (line 248), before touching any state.  Otherwise it computes
the band levels, updates the EMA (line 265) and only then compares the
bass level against the updated EMA plus the threshold (line 269); on a
beat it stores `now` as the last beat timestamp (line 270).  The
snapshots `freq`/`wave` stand for the data the analyser yields this
tick, and `now` for `performance.now()`. -/
def analyzeAudio (analyser : Option ℕ) (freq wave : List ℕ)
    (bassEma lastBeatTs now : ℚ) : Option AnalyzeResult :=
  match analyser with
  | none => none
  | some _ =>
    let bass := bassLevel freq
    let mid := midLevel freq
    let treble := trebleLevel freq
    let alpha : ℚ := 0.2
    let emaAfter := (1 - alpha) * bassEma + alpha * bass
    let threshold : ℚ := 35
    let minInterval : ℚ := 180
    let beat : Bool := decide (bass > emaAfter + threshold) && decide (now - lastBeatTs > minInterval)
    some
      { data :=
          { frequencies := freq
            waveform := wave
            bassLevel := bass
            midLevel := mid
            trebleLevel := treble
            beat := beat }
        bassEmaAfter := emaAfter
        lastBeatAfter := if beat then now else lastBeatTs }

/-- The per-bar target height of `drawBars` (line 167):
`(frequencies[i] / 255) * height * 0.7`. -/
def barTarget (freq : List ℕ) (height : ℚ) (i : ℕ) : ℚ :=
  ((freq.getD i 0 : ℚ) / 255) * height * 0.7

/-- The `for` loop of `drawBars` (lines 166-192) restricted to its state
effect on `prevBarHeightsRef`.  The length check and reinitialization
sit inside the loop body, exactly as in the source (lines 168-169);
`fuel` is the number of remaining iterations and `i` the current index.
The raster drawing of each bar is an external effect. -/
def loopBars (freq : List ℕ) (height : ℚ) (barCount : ℕ) : ℕ → List ℚ → ℕ → List ℚ
  | _, prev, 0 => prev
  | i, prev, fuel + 1 =>
    let prev1 := if prev.length ≠ barCount then List.replicate barCount (0 : ℚ) else prev
    let p := prev1.getD i 0
    let delta := max (min (barTarget freq height i - p) 8) (-8)
    loopBars freq height barCount (i + 1) (prev1.set i (p + delta)) fuel

/-- The effect of one `drawBars` call (lines 161-193) on the persistent
smoothed bar series, with `maxDelta = 8` (line 164). -/
def drawBarsUpdate (prev : List ℚ) (freq : List ℕ) (height : ℚ) : List ℚ :=
  loopBars freq height freq.length 0 prev freq.length

/-- The per-sample target of `drawWaveform` (lines 210-211):
`v = waveform[i] / 128; targetY = v * height / 2`. -/
def waveTarget (wave : List ℕ) (height : ℚ) (i : ℕ) : ℚ :=
  ((wave.getD i 0 : ℚ) / 128) * height / 2

/-- A rate-limited interpolation loop: at each step index `i` is moved
toward `target i` by at most `maxDelta`.  This is the `for` loop of
`drawWaveform` (lines 209-224) restricted to its effect on
`prevWaveRef`, with the target function and clamp bound abstracted. -/
def loopSmooth (target : ℕ → ℚ) (maxDelta : ℚ) : ℕ → List ℚ → ℕ → List ℚ
  | _, prev, 0 => prev
  | i, prev, fuel + 1 =>
    let p := prev.getD i 0
    let delta := max (min (target i - p) maxDelta) (-maxDelta)
    loopSmooth target maxDelta (i + 1) (prev.set i (p + delta)) fuel

/-- The effect of one `drawWaveform` call (lines 195-228) on the
persistent smoothed waveform series: the length check and mid-line
reinitialization before the loop (lines 205-207), then the loop with
`maxDelta = 3` (line 204). -/
def drawWaveformUpdate (prev : List ℚ) (wave : List ℕ) (height : ℚ) : List ℚ :=
  let prev1 := if prev.length ≠ wave.length then List.replicate wave.length (height / 2) else prev
  loopSmooth (waveTarget wave height) 3 0 prev1 wave.length

/-- The `sourceType` React state (line 36). -/
inductive SourceType where
  | mic
  | system
deriving Repr, DecidableEq

/-- The persistent state of the component: the React state hooks
(lines 34-37) and the refs that the tick pipeline mutates (lines 28-32).
`audioStreamTracks` models the retained `MediaStream` by its number of
audio tracks (`none` = no stream retained); `analyser` models
`analyserRef` by the analyser frequency bin count when installed. -/
structure AppState where
  isPlaying : Bool
  audioStreamTracks : Option ℕ
  sourceType : Option SourceType
  errorMsg : String
  analyser : Option ℕ
  bassEma : ℚ
  lastBeatTs : ℚ
  particles : List Particle
  prevBarHeights : List ℚ
  prevWave : List ℚ
deriving Repr, DecidableEq

/-- The initial (stopped) state: refs start at 0 / empty, React state at
`false` / `null` / the empty message. -/
def initialState : AppState :=
  { isPlaying := false
    audioStreamTracks := none
    sourceType := none
    errorMsg := ""
    analyser := none
    bassEma := 0
    lastBeatTs := 0
    particles := []
    prevBarHeights := []
    prevWave := [] }

/-- Outcome of a capture-acquisition call: a stream with a given number
of audio tracks, or a rejection carrying the DOMException name. -/
inductive AcqResult where
  | ok (audioTracks : ℕ)
  | err (name : String)
deriving Repr, DecidableEq

/-- The message shown when system-audio acquisition fails with
`NotSupportedError` (line 108). -/
def sysNotSupportedMsg : String :=
  "System audio is not supported in this browser or selection. Try sharing a browser tab and enable \"Share tab audio\" or use Chrome on macOS."

/-- The message shown for every other system-audio acquisition failure
(line 109). -/
def sysGenericMsg : String :=
  "Failed to access system audio. Please try again."

/-- `initializeMicrophone` (lines 39-69).  On success the stream is
retained, an analyser with `fftSize = 256` (so 128 bins) is installed,
the source type becomes `mic` and playback starts.  On failure the catch
block only logs to the console (line 67): no state field is written. -/
def initMicrophone (res : AcqResult) (s : AppState) : AppState :=
  match res with
  | AcqResult.ok tracks =>
    { s with
      audioStreamTracks := some tracks
      analyser := some 128
      sourceType := some SourceType.mic
      isPlaying := true }
  | AcqResult.err _ => s

/-- `initializeSystemAudio` (lines 71-112).  A selection with zero audio
tracks throws (line 81) before any state is written; the thrown error
(whose `name` is `Error`, not `NotSupportedError`) is caught by the same
catch block as acquisition rejections, which writes the generic message
(lines 104-110).  On success the stream is retained, the analyser is
installed, the source type becomes `system`, playback starts and the
error message is cleared. -/
def initSystemAudio (res : AcqResult) (s : AppState) : AppState :=
  match res with
  | AcqResult.ok tracks =>
    if tracks = 0 then
      { s with errorMsg := sysGenericMsg }
    else
      { s with
        audioStreamTracks := some tracks
        analyser := some 128
        sourceType := some SourceType.system
        isPlaying := true
        errorMsg := "" }
  | AcqResult.err name =>
    { s with errorMsg := if name = "NotSupportedError" then sysNotSupportedMsg else sysGenericMsg }

/-- The rendering surface as `animate` sees it: whether `getContext`
succeeds, and the current pixel dimensions. -/
structure Canvas where
  hasCtx : Bool
  width : ℚ
  height : ℚ
deriving Repr, DecidableEq

/-- The beat-triggered spawn loop of `animate` (lines 298-304): six
`createParticle(width / 2, height / 2, 0.8)` calls, the i-th consuming
the i-th block of random draws. -/
def spawnBurst (width height : ℚ) (draws : ℕ → RandDraw) : List Particle :=
  (List.range 6).map (fun i => createParticle (width / 2) (height / 2) 0.8 (draws i))

/-- The three draw calls of the tick (lines 307-309) restricted to their
state effect: `drawBars` and `drawWaveform` advance their smoothing
series; `drawParticles` reads the particle list and writes only to the
raster surface. -/
def drawPhase (s : AppState) (data : VisualizerData) (height : ℚ) : AppState :=
  { s with
    prevBarHeights := drawBarsUpdate s.prevBarHeights data.frequencies height
    prevWave := drawWaveformUpdate s.prevWave data.waveform height }

/-- One scheduler callback, `animate` (lines 282-312).  Returns the new
state together with whether `requestAnimationFrame` was called again
(line 311).  The early returns — missing canvas, not playing, missing 2D
context, null analysis data — all skip the rest of the callback without
rescheduling.  `freq`/`wave` are the audio snapshots of this tick, `now`
the current timestamp and `draws` the random source. -/
def animate (canvas : Option Canvas) (freq wave : List ℕ) (now : ℚ)
    (draws : ℕ → RandDraw) (s : AppState) : AppState × Bool :=
  match canvas with
  | none => (s, false)
  | some cv =>
    if !s.isPlaying then (s, false)
    else if !cv.hasCtx then (s, false)
    else
      match analyzeAudio s.analyser freq wave s.bassEma s.lastBeatTs now with
      | none => (s, false)
      | some r =>
        let s1 := { s with bassEma := r.bassEmaAfter, lastBeatTs := r.lastBeatAfter }
        let s2 :=
          if r.data.beat then
            { s1 with particles := s1.particles ++ spawnBurst cv.width cv.height draws }
          else s1
        let s3 := { s2 with particles := updateParticles s2.particles }
        (drawPhase s3 r.data cv.height, true)

/-! ## Helper lemmas -/

theorem getD_set_self (l : List ℚ) (i : ℕ) (v : ℚ) (h : i < l.length) :
    (l.set i v).getD i 0 = v := by
  rw [List.getD_eq_getElem?_getD, List.getElem?_set_self h]
  rfl

theorem getD_set_ne (l : List ℚ) (i j : ℕ) (v : ℚ) (h : i ≠ j) :
    (l.set i v).getD j 0 = l.getD j 0 := by
  rw [List.getD_eq_getElem?_getD, List.getElem?_set_ne h, ← List.getD_eq_getElem?_getD]

theorem getD_mem {α : Type} (l : List α) (i : ℕ) (d : α) (h : i < l.length) :
    l.getD i d ∈ l := by
  rw [List.getD_eq_getElem?_getD, List.getElem?_eq_getElem h]
  exact List.getElem_mem h

theorem clamp_abs_le (x d : ℚ) (hd : 0 ≤ d) : |max (min x d) (-d)| ≤ d := by
  rw [abs_le]
  constructor
  · exact le_max_right _ _
  · exact max_le (min_le_right _ _) (by linarith)

theorem clamp_eq_self (x d : ℚ) (h : |x| ≤ d) : max (min x d) (-d) = x := by
  rw [abs_le] at h
  rw [min_eq_left h.2, max_eq_left h.1]

theorem loopSmooth_length (t : ℕ → ℚ) (d : ℚ) :
    ∀ (fuel i : ℕ) (prev : List ℚ), (loopSmooth t d i prev fuel).length = prev.length := by
  intro fuel
  induction fuel with
  | zero => intro i prev; rfl
  | succ n ih =>
    intro i prev
    show (loopSmooth t d (i + 1) _ n).length = _
    rw [ih]
    exact List.length_set ..

theorem loopSmooth_getD (t : ℕ → ℚ) (d : ℚ) :
    ∀ (fuel i : ℕ) (prev : List ℚ) (j : ℕ), j < prev.length →
      (loopSmooth t d i prev fuel).getD j 0 =
        if i ≤ j ∧ j < i + fuel then
          prev.getD j 0 + max (min (t j - prev.getD j 0) d) (-d)
        else prev.getD j 0 := by
  intro fuel
  induction fuel with
  | zero =>
    intro i prev j hj
    have hc : ¬ (i ≤ j ∧ j < i + 0) := by omega
    rw [if_neg hc]
    rfl
  | succ n ih =>
    intro i prev j hj
    have hstep : loopSmooth t d i prev (n + 1)
        = loopSmooth t d (i + 1)
            (prev.set i (prev.getD i 0 + max (min (t i - prev.getD i 0) d) (-d))) n := rfl
    have hjset : j < (prev.set i (prev.getD i 0 + max (min (t i - prev.getD i 0) d) (-d))).length := by
      rw [List.length_set]; exact hj
    rw [hstep, ih (i + 1) _ j hjset]
    by_cases hji : j = i
    · subst hji
      have h1 : ¬ (j + 1 ≤ j ∧ j < j + 1 + n) := by omega
      have h2 : j ≤ j ∧ j < j + (n + 1) := by omega
      rw [if_neg h1, if_pos h2, getD_set_self _ _ _ hj]
    · have hne : i ≠ j := fun hh => hji hh.symm
      rw [getD_set_ne _ _ _ _ hne]
      by_cases hc : i ≤ j ∧ j < i + (n + 1)
      · have hc' : i + 1 ≤ j ∧ j < i + 1 + n := by omega
        rw [if_pos hc', if_pos hc]
      · have hc' : ¬ (i + 1 ≤ j ∧ j < i + 1 + n) := by omega
        rw [if_neg hc', if_neg hc]

theorem loopBars_eq_loopSmooth (freq : List ℕ) (h : ℚ) (n : ℕ) :
    ∀ (fuel i : ℕ) (prev : List ℚ), prev.length = n →
      loopBars freq h n i prev fuel = loopSmooth (barTarget freq h) 8 i prev fuel := by
  intro fuel
  induction fuel with
  | zero => intro i prev _; rfl
  | succ m ih =>
    intro i prev hlen
    have hcond : ¬ (prev.length ≠ n) := by omega
    show loopBars freq h n i prev (m + 1) = _
    rw [loopBars, loopSmooth]
    simp only [hcond, if_false, ite_false, if_neg hcond]
    exact ih (i + 1) _ (by rw [List.length_set]; exact hlen)

theorem slice_sum_eq (l : List ℕ) (a : ℕ) :
    ∀ (w : ℕ), a + w ≤ l.length →
      (((l.drop a).take w).map (fun (v : ℕ) => (v : ℚ))).sum
        = ((List.range w).map (fun k => (l.getD (a + k) 0 : ℚ))).sum := by
  intro w
  induction w with
  | zero => intro _; simp
  | succ n ih =>
    intro h
    have h' : a + n ≤ l.length := by omega
    have hn : a + n < l.length := by omega
    have hdrop : (l.drop a)[n]? = some l[a + n] := by
      rw [List.getElem?_drop, List.getElem?_eq_getElem hn]
    rw [List.take_succ, List.range_succ, List.map_append, List.map_append,
      List.sum_append, List.sum_append, ih h', hdrop]
    simp [List.getD_eq_getElem?_getD, List.getElem?_eq_getElem hn]

theorem slice_length_take (l : List ℕ) (a w : ℕ) (h : a + w ≤ l.length) :
    ((l.drop a).take w).length = w := by
  rw [List.length_take, List.length_drop]
  omega

theorem mean_bounds (l : List ℕ) (hl : l ≠ []) (hv : ∀ v ∈ l, v ≤ 255) :
    0 ≤ ((l.map (fun (v : ℕ) => (v : ℚ))).sum) / (l.length : ℚ) ∧
      ((l.map (fun (v : ℕ) => (v : ℚ))).sum) / (l.length : ℚ) ≤ 255 := by
  have hlen : 0 < l.length := List.length_pos.mpr hl
  have hlenq : (0 : ℚ) < (l.length : ℚ) := by exact_mod_cast hlen
  have hsum0 : 0 ≤ (l.map (fun (v : ℕ) => (v : ℚ))).sum := by
    apply List.sum_nonneg
    intro x hx
    obtain ⟨v, _, rfl⟩ := List.mem_map.mp hx
    positivity
  have hsum : (l.map (fun (v : ℕ) => (v : ℚ))).sum ≤ (l.length : ℚ) * 255 := by
    have := List.sum_le_card_nsmul (l.map (fun (v : ℕ) => (v : ℚ))) 255 ?_
    · rwa [List.length_map, nsmul_eq_mul] at this
    · intro x hx
      obtain ⟨v, hvmem, rfl⟩ := List.mem_map.mp hx
      exact_mod_cast hv v hvmem
  constructor
  · exact div_nonneg hsum0 (le_of_lt hlenq)
  · rw [div_le_iff₀ hlenq]
    linarith

theorem loopBars_reset (freq : List ℕ) (h : ℚ) (n i : ℕ) (prev : List ℚ) (m : ℕ)
    (hB : prev.length ≠ n) :
    loopBars freq h n i prev (m + 1) = loopBars freq h n i (List.replicate n 0) (m + 1) := by
  conv_lhs => rw [loopBars]
  conv_rhs => rw [loopBars]
  simp [hB]

/-! ## Claim theorems -/

/-- C5: for every frequency snapshot of length at least 100 whose values
are byte-sized, the three band levels computed by `analyzeAudio` equal
the exact arithmetic means of the snapshot over the index ranges
`[0,10)`, `[10,50)` and `[50,100)`, and each lies in `[0,255]`. -/
theorem C5_band_aggregator (freq : List ℕ) (hlen : 100 ≤ freq.length)
    (hval : ∀ v ∈ freq, v ≤ 255) :
    bassLevel freq = rangeMean freq 0 10 ∧
    midLevel freq = rangeMean freq 10 50 ∧
    trebleLevel freq = rangeMean freq 50 100 ∧
    0 ≤ bassLevel freq ∧ bassLevel freq ≤ 255 ∧
    0 ≤ midLevel freq ∧ midLevel freq ≤ 255 ∧
    0 ≤ trebleLevel freq ∧ trebleLevel freq ≤ 255 := by
  have hb_eq : bassLevel freq = rangeMean freq 0 10 := by
    unfold bassLevel rangeMean
    rw [show freq.take 10 = (freq.drop 0).take 10 by rw [List.drop_zero],
      slice_sum_eq freq 0 10 (by omega), slice_length_take freq 0 10 (by omega)]
  have hm_eq : midLevel freq = rangeMean freq 10 50 := by
    unfold midLevel rangeMean
    rw [slice_sum_eq freq 10 40 (by omega), slice_length_take freq 10 40 (by omega)]
  have ht_eq : trebleLevel freq = rangeMean freq 50 100 := by
    unfold trebleLevel rangeMean
    rw [slice_sum_eq freq 50 50 (by omega), slice_length_take freq 50 50 (by omega)]
  have hb_bounds := mean_bounds (freq.take 10)
    (by
      have : (freq.take 10).length = 10 := by rw [List.length_take]; omega
      exact List.length_pos.mp (by omega))
    (fun v hv => hval v (List.mem_of_mem_take hv))
  have hm_bounds := mean_bounds ((freq.drop 10).take 40)
    (by
      have : ((freq.drop 10).take 40).length = 40 := slice_length_take freq 10 40 (by omega)
      exact List.length_pos.mp (by omega))
    (fun v hv => hval v (List.mem_of_mem_drop (List.mem_of_mem_take hv)))
  have ht_bounds := mean_bounds ((freq.drop 50).take 50)
    (by
      have : ((freq.drop 50).take 50).length = 50 := slice_length_take freq 50 50 (by omega)
      exact List.length_pos.mp (by omega))
    (fun v hv => hval v (List.mem_of_mem_drop (List.mem_of_mem_take hv)))
  exact ⟨hb_eq, hm_eq, ht_eq, hb_bounds.1, hb_bounds.2, hm_bounds.1, hm_bounds.2,
    ht_bounds.1, ht_bounds.2⟩

/-- C5 witness: the band aggregator facts evaluated on a concrete
128-bin snapshot with every bin at 7. -/
theorem C5_witness :
    bassLevel (List.replicate 128 7) = rangeMean (List.replicate 128 7) 0 10 ∧
    midLevel (List.replicate 128 7) = rangeMean (List.replicate 128 7) 10 50 ∧
    trebleLevel (List.replicate 128 7) = rangeMean (List.replicate 128 7) 50 100 ∧
    0 ≤ bassLevel (List.replicate 128 7) ∧ bassLevel (List.replicate 128 7) ≤ 255 ∧
    0 ≤ midLevel (List.replicate 128 7) ∧ midLevel (List.replicate 128 7) ≤ 255 ∧
    0 ≤ trebleLevel (List.replicate 128 7) ∧ trebleLevel (List.replicate 128 7) ≤ 255 :=
  C5_band_aggregator (List.replicate 128 7) (by norm_num)
    (fun v hv => by simp [List.eq_of_mem_replicate hv])

/-- C6: for matching lengths, one smoothing step moves every element by
the clamped difference toward its target (`maxDelta = 8` for bars, `3`
for the waveform), so each element changes by at most `maxDelta`, and an
element already within `maxDelta` of its target lands exactly on the
target after one step. -/
theorem C6_smoothing_step (prevB prevW : List ℚ) (freq wave : List ℕ) (height : ℚ)
    (hB : prevB.length = freq.length) (hW : prevW.length = wave.length) :
    (∀ i, i < freq.length →
      (drawBarsUpdate prevB freq height).getD i 0
          = prevB.getD i 0 + max (min (barTarget freq height i - prevB.getD i 0) 8) (-8) ∧
      |(drawBarsUpdate prevB freq height).getD i 0 - prevB.getD i 0| ≤ 8 ∧
      (|barTarget freq height i - prevB.getD i 0| ≤ 8 →
        (drawBarsUpdate prevB freq height).getD i 0 = barTarget freq height i)) ∧
    (∀ i, i < wave.length →
      (drawWaveformUpdate prevW wave height).getD i 0
          = prevW.getD i 0 + max (min (waveTarget wave height i - prevW.getD i 0) 3) (-3) ∧
      |(drawWaveformUpdate prevW wave height).getD i 0 - prevW.getD i 0| ≤ 3 ∧
      (|waveTarget wave height i - prevW.getD i 0| ≤ 3 →
        (drawWaveformUpdate prevW wave height).getD i 0 = waveTarget wave height i)) := by
  have hbu : drawBarsUpdate prevB freq height
      = loopSmooth (barTarget freq height) 8 0 prevB freq.length :=
    loopBars_eq_loopSmooth freq height freq.length freq.length 0 prevB hB
  have hwu : drawWaveformUpdate prevW wave height
      = loopSmooth (waveTarget wave height) 3 0 prevW wave.length := by
    simp only [drawWaveformUpdate]
    rw [if_neg (by omega : ¬ prevW.length ≠ wave.length)]
  constructor
  · intro i hi
    have hstep := loopSmooth_getD (barTarget freq height) 8 freq.length 0 prevB i (by omega)
    rw [if_pos (by omega : 0 ≤ i ∧ i < 0 + freq.length)] at hstep
    have h1 : (drawBarsUpdate prevB freq height).getD i 0
        = prevB.getD i 0 + max (min (barTarget freq height i - prevB.getD i 0) 8) (-8) := by
      rw [hbu, hstep]
    refine ⟨h1, ?_, ?_⟩
    · rw [h1]
      have : prevB.getD i 0 + max (min (barTarget freq height i - prevB.getD i 0) 8) (-8)
          - prevB.getD i 0 = max (min (barTarget freq height i - prevB.getD i 0) 8) (-8) := by
        ring
      rw [this]
      exact clamp_abs_le _ _ (by norm_num)
    · intro habs
      rw [h1, clamp_eq_self _ _ habs]
      ring
  · intro i hi
    have hstep := loopSmooth_getD (waveTarget wave height) 3 wave.length 0 prevW i (by omega)
    rw [if_pos (by omega : 0 ≤ i ∧ i < 0 + wave.length)] at hstep
    have h1 : (drawWaveformUpdate prevW wave height).getD i 0
        = prevW.getD i 0 + max (min (waveTarget wave height i - prevW.getD i 0) 3) (-3) := by
      rw [hwu, hstep]
    refine ⟨h1, ?_, ?_⟩
    · rw [h1]
      have : prevW.getD i 0 + max (min (waveTarget wave height i - prevW.getD i 0) 3) (-3)
          - prevW.getD i 0 = max (min (waveTarget wave height i - prevW.getD i 0) 3) (-3) := by
        ring
      rw [this]
      exact clamp_abs_le _ _ (by norm_num)
    · intro habs
      rw [h1, clamp_eq_self _ _ habs]
      ring

/-- C6 witness: the bar-instance smoothing step evaluated on a
concrete one-bar state. -/
theorem C6_witness :
    (drawBarsUpdate [(0 : ℚ)] [0] 0).getD 0 0
        = ([(0 : ℚ)]).getD 0 0
          + max (min (barTarget [0] 0 0 - ([(0 : ℚ)]).getD 0 0) 8) (-8) ∧
    |(drawBarsUpdate [(0 : ℚ)] [0] 0).getD 0 0 - ([(0 : ℚ)]).getD 0 0| ≤ 8 ∧
    (|barTarget [0] 0 0 - ([(0 : ℚ)]).getD 0 0| ≤ 8 →
      (drawBarsUpdate [(0 : ℚ)] [0] 0).getD 0 0 = barTarget [0] 0 0) :=
  (C6_smoothing_step [(0 : ℚ)] [(0 : ℚ)] [0] [0] 0 rfl rfl).1 0 (by norm_num)

/-- C7 counterexample: with an empty observed snapshot the bars instance
does NOT reinitialize: the length check sits inside the per-bar loop, so
a zero-bar snapshot leaves the stale series `[5]` in place instead of
resetting it to the zero-length baseline. -/
theorem C7_counterexample :
    ([(5 : ℚ)]).length ≠ ([] : List ℕ).length ∧
    drawBarsUpdate [(5 : ℚ)] ([] : List ℕ) 100 = [(5 : ℚ)] ∧
    drawBarsUpdate (List.replicate ([] : List ℕ).length 0) ([] : List ℕ) 100 = ([] : List ℚ) :=
  ⟨by simp, rfl, rfl⟩

/-- C7 amended: whenever the observed cardinality differs from the
stored series length, the bars instance reinitializes to the all-zero
baseline provided the snapshot is nonempty, and the waveform instance
reinitializes to the mid-line baseline unconditionally; both updated
series then have the snapshot cardinality, so the following tick runs
the plain rate-limited interpolation step. -/
theorem C7_resize_reinit (prevB prevW : List ℚ) (freq wave : List ℕ) (height : ℚ)
    (hB : prevB.length ≠ freq.length) (hpos : 0 < freq.length)
    (hW : prevW.length ≠ wave.length) :
    drawBarsUpdate prevB freq height
        = drawBarsUpdate (List.replicate freq.length 0) freq height ∧
    (drawBarsUpdate prevB freq height).length = freq.length ∧
    drawWaveformUpdate prevW wave height
        = drawWaveformUpdate (List.replicate wave.length (height / 2)) wave height ∧
    (drawWaveformUpdate prevW wave height).length = wave.length := by
  obtain ⟨m, hm⟩ : ∃ m, freq.length = m + 1 := ⟨freq.length - 1, by omega⟩
  have hbars : drawBarsUpdate prevB freq height
      = drawBarsUpdate (List.replicate freq.length 0) freq height := by
    unfold drawBarsUpdate
    rw [hm]
    exact loopBars_reset freq height (m + 1) 0 prevB m (hm ▸ hB)
  have hbase : drawBarsUpdate (List.replicate freq.length 0) freq height
      = loopSmooth (barTarget freq height) 8 0 (List.replicate freq.length 0) freq.length :=
    loopBars_eq_loopSmooth freq height freq.length freq.length 0 _ (List.length_replicate ..)
  have hblen : (drawBarsUpdate prevB freq height).length = freq.length := by
    rw [hbars, hbase, loopSmooth_length, List.length_replicate]
  have hwave : drawWaveformUpdate prevW wave height
      = drawWaveformUpdate (List.replicate wave.length (height / 2)) wave height := by
    simp [drawWaveformUpdate, hW]
  have hwlen : (drawWaveformUpdate prevW wave height).length = wave.length := by
    simp only [drawWaveformUpdate]
    rw [if_pos hW, loopSmooth_length, List.length_replicate]
  exact ⟨hbars, hblen, hwave, hwlen⟩

/-- C7 witness: the reinitialization facts evaluated on concrete
mismatched series. -/
theorem C7_witness :
    drawBarsUpdate [(1 : ℚ)] [3, 4] 100
        = drawBarsUpdate (List.replicate ([3, 4] : List ℕ).length 0) [3, 4] 100 ∧
    (drawBarsUpdate [(1 : ℚ)] [3, 4] 100).length = ([3, 4] : List ℕ).length ∧
    drawWaveformUpdate ([] : List ℚ) [5] 100
        = drawWaveformUpdate (List.replicate ([5] : List ℕ).length ((100 : ℚ) / 2)) [5] 100 ∧
    (drawWaveformUpdate ([] : List ℚ) [5] 100).length = ([5] : List ℕ).length :=
  C7_resize_reinit [(1 : ℚ)] ([] : List ℚ) [3, 4] [5] 100 (by decide) (by decide) (by decide)

theorem updateParticles_length_all (ps : List Particle)
    (h : ∀ p ∈ ps, ((advanceParticle p).life : ℚ) < (advanceParticle p).maxLife) :
    (updateParticles ps).length = ps.length := by
  induction ps with
  | nil => rfl
  | cons a t ih =>
    have ha := h a (List.mem_cons_self a t)
    unfold updateParticles at ih ⊢
    rw [List.filterMap_cons]
    simp only [if_pos ha, List.length_cons]
    rw [ih (fun p hp => h p (List.mem_cons_of_mem a hp))]

/-- C8: each advance adds the velocity to the position, multiplies the
velocity by the 0.98 drag, and increments the age by exactly 1; the
fused advance-and-cull pass keeps exactly the advanced particles whose
new age is still below their lifetime; and k advances scale each
velocity component, hence the squared velocity magnitude, by powers of
0.98. -/
theorem C8_particle_lifecycle :
    (∀ p : Particle,
      (advanceParticle p).x = p.x + p.vx ∧ (advanceParticle p).y = p.y + p.vy ∧
      (advanceParticle p).vx = p.vx * 0.98 ∧ (advanceParticle p).vy = p.vy * 0.98 ∧
      (advanceParticle p).life = p.life + 1 ∧ (advanceParticle p).maxLife = p.maxLife) ∧
    (∀ (ps : List Particle) (q : Particle),
      q ∈ updateParticles ps ↔ ∃ p ∈ ps, advanceParticle p = q ∧ (q.life : ℚ) < q.maxLife) ∧
    (∀ (p : Particle) (k : ℕ),
      (advanceParticle^[k] p).vx = p.vx * 0.98 ^ k ∧
      (advanceParticle^[k] p).vy = p.vy * 0.98 ^ k ∧
      (advanceParticle^[k] p).life = p.life + k ∧
      (advanceParticle^[k] p).vx ^ 2 + (advanceParticle^[k] p).vy ^ 2
        = (p.vx ^ 2 + p.vy ^ 2) * (0.98 ^ k) ^ 2) := by
  refine ⟨fun p => ⟨rfl, rfl, rfl, rfl, rfl, rfl⟩, ?_, ?_⟩
  · intro ps q
    unfold updateParticles
    rw [List.mem_filterMap]
    constructor
    · rintro ⟨a, ha, hfa⟩
      simp only at hfa
      split_ifs at hfa with hlt
      obtain rfl := Option.some.inj hfa
      exact ⟨a, ha, rfl, hlt⟩
    · rintro ⟨p, hp, rfl, hlt⟩
      refine ⟨p, hp, ?_⟩
      simp only [if_pos hlt]
  · intro p k
    induction k with
    | zero => simp
    | succ n ih =>
      obtain ⟨hvx, hvy, hlife, _⟩ := ih
      rw [Function.iterate_succ_apply']
      refine ⟨?_, ?_, ?_, ?_⟩
      · show (advanceParticle^[n] p).vx * 0.98 = p.vx * 0.98 ^ (n + 1)
        rw [hvx, pow_succ]; ring
      · show (advanceParticle^[n] p).vy * 0.98 = p.vy * 0.98 ^ (n + 1)
        rw [hvy, pow_succ]; ring
      · show (advanceParticle^[n] p).life + 1 = p.life + (n + 1)
        omega
      · show ((advanceParticle^[n] p).vx * 0.98) ^ 2 + ((advanceParticle^[n] p).vy * 0.98) ^ 2
            = (p.vx ^ 2 + p.vy ^ 2) * (0.98 ^ (n + 1)) ^ 2
        rw [hvx, hvy, pow_succ]
        ring

/-- C8 witness: the advance facts evaluated on a concrete particle. -/
theorem C8_witness :
    (advanceParticle ⟨0, 0, 1, 2, 0, 60, "#00ffff"⟩).x
        = (⟨0, 0, 1, 2, 0, 60, "#00ffff"⟩ : Particle).x
          + (⟨0, 0, 1, 2, 0, 60, "#00ffff"⟩ : Particle).vx ∧
    (advanceParticle ⟨0, 0, 1, 2, 0, 60, "#00ffff"⟩).y
        = (⟨0, 0, 1, 2, 0, 60, "#00ffff"⟩ : Particle).y
          + (⟨0, 0, 1, 2, 0, 60, "#00ffff"⟩ : Particle).vy ∧
    (advanceParticle ⟨0, 0, 1, 2, 0, 60, "#00ffff"⟩).vx
        = (⟨0, 0, 1, 2, 0, 60, "#00ffff"⟩ : Particle).vx * 0.98 ∧
    (advanceParticle ⟨0, 0, 1, 2, 0, 60, "#00ffff"⟩).vy
        = (⟨0, 0, 1, 2, 0, 60, "#00ffff"⟩ : Particle).vy * 0.98 ∧
    (advanceParticle ⟨0, 0, 1, 2, 0, 60, "#00ffff"⟩).life
        = (⟨0, 0, 1, 2, 0, 60, "#00ffff"⟩ : Particle).life + 1 ∧
    (advanceParticle ⟨0, 0, 1, 2, 0, 60, "#00ffff"⟩).maxLife
        = (⟨0, 0, 1, 2, 0, 60, "#00ffff"⟩ : Particle).maxLife :=
  C8_particle_lifecycle.1 ⟨0, 0, 1, 2, 0, 60, "#00ffff"⟩

/-- C10: after the fused advance-and-cull pass that follows spawning in
the tick, every surviving particle has age at least 1 and strictly below
its lifetime, so the opacity drawn by `drawParticles` lies strictly
between 0 and 1. -/
theorem C10_draw_invariant (ps spawned : List Particle)
    (h : ∀ p ∈ ps ++ spawned, 60 ≤ p.maxLife) :
    ∀ q ∈ updateParticles (ps ++ spawned),
      1 ≤ q.life ∧ (q.life : ℚ) < q.maxLife ∧ 60 ≤ q.maxLife ∧
      0 < particleAlpha q ∧ particleAlpha q < 1 := by
  intro q hq
  unfold updateParticles at hq
  rw [List.mem_filterMap] at hq
  obtain ⟨p, hp, hfp⟩ := hq
  simp only at hfp
  split_ifs at hfp with hlt
  obtain rfl := Option.some.inj hfp
  have hlife : 1 ≤ (advanceParticle p).life := by
    show 1 ≤ p.life + 1
    omega
  have hmax : 60 ≤ (advanceParticle p).maxLife := h p hp
  have hmaxpos : (0 : ℚ) < (advanceParticle p).maxLife := by linarith
  have hlifepos : (0 : ℚ) < ((advanceParticle p).life : ℚ) := by exact_mod_cast hlife
  refine ⟨hlife, hlt, hmax, ?_, ?_⟩
  · unfold particleAlpha
    have : ((advanceParticle p).life : ℚ) / (advanceParticle p).maxLife < 1 :=
      (div_lt_one hmaxpos).mpr hlt
    linarith
  · unfold particleAlpha
    have : (0 : ℚ) < ((advanceParticle p).life : ℚ) / (advanceParticle p).maxLife :=
      div_pos hlifepos hmaxpos
    linarith

/-- C10 witness: the draw-time invariant evaluated on a concrete
one-particle collection. -/
theorem C10_witness :
    1 ≤ (advanceParticle ⟨0, 0, 1, 1, 0, 60, "#00ffff"⟩).life ∧
    ((advanceParticle ⟨0, 0, 1, 1, 0, 60, "#00ffff"⟩).life : ℚ)
        < (advanceParticle ⟨0, 0, 1, 1, 0, 60, "#00ffff"⟩).maxLife ∧
    60 ≤ (advanceParticle ⟨0, 0, 1, 1, 0, 60, "#00ffff"⟩).maxLife ∧
    0 < particleAlpha (advanceParticle ⟨0, 0, 1, 1, 0, 60, "#00ffff"⟩) ∧
    particleAlpha (advanceParticle ⟨0, 0, 1, 1, 0, 60, "#00ffff"⟩) < 1 :=
  C10_draw_invariant [] [⟨0, 0, 1, 1, 0, 60, "#00ffff"⟩]
    (by
      intro p hp
      simp only [List.nil_append, List.mem_singleton] at hp
      subst hp
      norm_num)
    (advanceParticle ⟨0, 0, 1, 1, 0, 60, "#00ffff"⟩)
    (by
      unfold updateParticles
      rw [List.mem_filterMap]
      refine ⟨⟨0, 0, 1, 1, 0, 60, "#00ffff"⟩, by simp, ?_⟩
      simp only
      rw [if_pos]
      show ((1 : ℕ) : ℚ) < 60
      norm_num)

/-- C9: on a beat tick exactly six particles are spawned, each anchored
at the center with intensity 0.8, zero age, per-axis speed at most 0.4,
lifetime in `[60, 120)` and a palette color; and the scenario where the
bass jumps from 0 to 255 with the EMA at 0 (and the cooldown elapsed)
indeed fires a beat and leaves exactly six live particles after the
tick. -/
theorem C9_beat_spawn (width height now : ℚ) (draws : ℕ → RandDraw)
    (hdraws : ∀ i, i < 6 →
      0 ≤ (draws i).vxRand ∧ (draws i).vxRand < 1 ∧
      0 ≤ (draws i).vyRand ∧ (draws i).vyRand < 1 ∧
      0 ≤ (draws i).lifeRand ∧ (draws i).lifeRand < 1 ∧
      0 ≤ (draws i).colorRand ∧ (draws i).colorRand < 1)
    (hnow : 180 < now) :
    ((analyzeAudio (some 128) (List.replicate 128 255) (List.replicate 128 128) 0 0 now).map
        (fun r => r.data.beat) = some true) ∧
    (spawnBurst width height draws).length = 6 ∧
    (∀ p ∈ spawnBurst width height draws,
      p.x = width / 2 ∧ p.y = height / 2 ∧ p.life = 0 ∧
      |p.vx| ≤ 0.4 ∧ |p.vy| ≤ 0.4 ∧
      60 ≤ p.maxLife ∧ p.maxLife < 120 ∧ p.color ∈ colors) ∧
    (animate (some { hasCtx := true, width := width, height := height })
        (List.replicate 128 255) (List.replicate 128 128) now draws
        { initialState with isPlaying := true, analyser := some 128 }).1.particles.length
      = 6 := by
  have hbass : bassLevel (List.replicate 128 255) = 255 := by
    simp [bassLevel, List.take_replicate]
    norm_num
  have hA : (255 : ℚ) > (1 - 0.2) * 0 + 0.2 * 255 + 35 := by norm_num
  have hB : now - 0 > 180 := by rw [sub_zero]; exact hnow
  have hmap : ((analyzeAudio (some 128) (List.replicate 128 255) (List.replicate 128 128) 0 0
      now).map (fun r => r.data.beat)) = some true := by
    simp only [analyzeAudio, Option.map_some']
    rw [hbass, decide_eq_true hA, decide_eq_true hB]
    rfl
  have hprops : ∀ p ∈ spawnBurst width height draws,
      p.x = width / 2 ∧ p.y = height / 2 ∧ p.life = 0 ∧
      |p.vx| ≤ 0.4 ∧ |p.vy| ≤ 0.4 ∧
      60 ≤ p.maxLife ∧ p.maxLife < 120 ∧ p.color ∈ colors := by
    intro p hp
    simp only [spawnBurst, List.mem_map, List.mem_range] at hp
    obtain ⟨i, hi, rfl⟩ := hp
    obtain ⟨h1, h2, h3, h4, h5, h6, h7, h8⟩ := hdraws i hi
    refine ⟨rfl, rfl, rfl, ?_, ?_, ?_, ?_, ?_⟩
    · show |((draws i).vxRand - 0.5) * 0.8| ≤ 0.4
      rw [abs_mul, show |(0.8 : ℚ)| = 0.8 from by norm_num]
      have habs : |(draws i).vxRand - 0.5| ≤ 0.5 := abs_le.mpr ⟨by linarith, by linarith⟩
      nlinarith [abs_nonneg ((draws i).vxRand - 0.5)]
    · show |((draws i).vyRand - 0.5) * 0.8| ≤ 0.4
      rw [abs_mul, show |(0.8 : ℚ)| = 0.8 from by norm_num]
      have habs : |(draws i).vyRand - 0.5| ≤ 0.5 := abs_le.mpr ⟨by linarith, by linarith⟩
      nlinarith [abs_nonneg ((draws i).vyRand - 0.5)]
    · show (60 : ℚ) ≤ 60 + (draws i).lifeRand * 60
      nlinarith
    · show 60 + (draws i).lifeRand * 60 < 120
      nlinarith
    · show colors.getD (Int.toNat ⌊(draws i).colorRand * (colors.length : ℚ)⌋) "" ∈ colors
      have hcl : ((colors.length : ℕ) : ℚ) = 6 := by norm_num [colors]
      have hflo : ⌊(draws i).colorRand * (colors.length : ℚ)⌋ < (6 : ℤ) := by
        rw [hcl]
        refine Int.floor_lt.mpr ?_
        push_cast
        nlinarith
      have hnn : (0 : ℤ) ≤ ⌊(draws i).colorRand * (colors.length : ℚ)⌋ := by
        rw [hcl]
        exact Int.floor_nonneg.mpr (by nlinarith)
      refine getD_mem colors _ "" ?_
      have h6 : colors.length = 6 := rfl
      omega
  have hlen6 : (spawnBurst width height draws).length = 6 := by
    simp [spawnBurst]
  refine ⟨hmap, hlen6, hprops, ?_⟩
  obtain ⟨r, hr⟩ : ∃ r, analyzeAudio (some 128) (List.replicate 128 255)
      (List.replicate 128 128) 0 0 now = some r := ⟨_, rfl⟩
  have hbeat : r.data.beat = true := by
    have hmap2 := hmap
    rw [hr, Option.map_some'] at hmap2
    exact Option.some.inj hmap2
  have hsurv : ∀ p ∈ spawnBurst width height draws,
      ((advanceParticle p).life : ℚ) < (advanceParticle p).maxLife := by
    intro p hp
    obtain ⟨-, -, hlife0, -, -, hml, -, -⟩ := hprops p hp
    show ((p.life + 1 : ℕ) : ℚ) < p.maxLife
    rw [hlife0]
    push_cast
    linarith
  simp only [animate, initialState]
  rw [hr]
  simp only [drawPhase, hbeat, if_true, List.nil_append, Bool.not_true, Bool.false_eq_true,
    if_false]
  rw [updateParticles_length_all _ hsurv, hlen6]

/-- C9 witness: the spawn facts evaluated at a concrete canvas size,
timestamp and random source. -/
theorem C9_witness :
    ((analyzeAudio (some 128) (List.replicate 128 255) (List.replicate 128 128) 0 0 1000).map
        (fun r => r.data.beat) = some true) ∧
    (spawnBurst 800 400 (fun _ => ⟨0, 0, 0, 0⟩)).length = 6 ∧
    (∀ p ∈ spawnBurst 800 400 (fun _ => ⟨0, 0, 0, 0⟩),
      p.x = 800 / 2 ∧ p.y = 400 / 2 ∧ p.life = 0 ∧
      |p.vx| ≤ 0.4 ∧ |p.vy| ≤ 0.4 ∧
      60 ≤ p.maxLife ∧ p.maxLife < 120 ∧ p.color ∈ colors) ∧
    (animate (some { hasCtx := true, width := 800, height := 400 })
        (List.replicate 128 255) (List.replicate 128 128) 1000 (fun _ => ⟨0, 0, 0, 0⟩)
        { initialState with isPlaying := true, analyser := some 128 }).1.particles.length
      = 6 :=
  C9_beat_spawn 800 400 1000 (fun _ => ⟨0, 0, 0, 0⟩)
    (fun i _ => by norm_num) (by norm_num)

/-- C1 counterexample: the claim predicts a beat whenever
`bass > ema_before + 35` (with the cooldown elapsed), but `analyzeAudio`
updates the EMA first and compares against the updated value: with
`ema_before = 0`, `bass = 36 = ema_before + threshold + 1`,
`lastBeatTime = 0` and `now = 1000` the claimed formula fires
(`36 > 0 + 35` and `1000 - 0 > 180`) while the code does not
(`36 ≤ 0.8·0 + 0.2·36 + 35 = 42.2`). -/
theorem C1_counterexample :
    bassLevel (List.replicate 128 36) = 36 ∧
    ((36 : ℚ) > 0 + 35 ∧ (1000 : ℚ) - 0 > 180) ∧
    (analyzeAudio (some 128) (List.replicate 128 36) (List.replicate 128 128) 0 0 1000).map
        (fun r => r.data.beat) = some false := by
  have hbass : bassLevel (List.replicate 128 36) = 36 := by
    simp [bassLevel, List.take_replicate]
    norm_num
  refine ⟨hbass, ⟨by norm_num, by norm_num⟩, ?_⟩
  simp only [analyzeAudio, Option.map_some']
  rw [hbass,
    decide_eq_false (show ¬ ((36 : ℚ) > (1 - 0.2) * 0 + 0.2 * 36 + 35) by norm_num),
    Bool.false_and]

/-- C1 amended: on every tick the EMA is updated first,
`ema_after = 0.8·ema_before + 0.2·bass`, and the beat flag equals
`(bass > ema_after + 35) AND (now - lastBeatTime > 180)`;
`lastBeatTime` is set to `now` exactly when the beat fires.  A constant
bass equal to the EMA never fires, no beat fires within the 180 ms
cooldown, and a spike of `ema + 44` (which exceeds the effective
threshold `ema + 43.75`) fires when the cooldown has elapsed. -/
theorem C1_beat_detector (n : ℕ) (freq wave : List ℕ) (ema lastBeat now : ℚ) :
    (analyzeAudio (some n) freq wave ema lastBeat now).map (fun r => r.bassEmaAfter)
        = some (0.8 * ema + 0.2 * bassLevel freq) ∧
    (analyzeAudio (some n) freq wave ema lastBeat now).map (fun r => r.data.beat)
        = some (decide (bassLevel freq > 0.8 * ema + 0.2 * bassLevel freq + 35)
            && decide (now - lastBeat > 180)) ∧
    ((bassLevel freq > 0.8 * ema + 0.2 * bassLevel freq + 35 ∧ now - lastBeat > 180) →
      (analyzeAudio (some n) freq wave ema lastBeat now).map (fun r => r.lastBeatAfter)
        = some now) ∧
    (¬ (bassLevel freq > 0.8 * ema + 0.2 * bassLevel freq + 35 ∧ now - lastBeat > 180) →
      (analyzeAudio (some n) freq wave ema lastBeat now).map (fun r => r.lastBeatAfter)
        = some lastBeat) ∧
    (bassLevel freq = ema →
      (analyzeAudio (some n) freq wave ema lastBeat now).map (fun r => r.data.beat)
        = some false) ∧
    (now - lastBeat ≤ 180 →
      (analyzeAudio (some n) freq wave ema lastBeat now).map (fun r => r.data.beat)
        = some false) ∧
    (bassLevel freq = ema + 44 → 180 < now - lastBeat →
      (analyzeAudio (some n) freq wave ema lastBeat now).map (fun r => r.data.beat)
        = some true) := by
  have h08 : (1 : ℚ) - 0.2 = 0.8 := by norm_num
  simp only [analyzeAudio, Option.map_some', h08]
  refine ⟨trivial, trivial, ?_, ?_, ?_, ?_, ?_⟩
  · rintro ⟨h1, h2⟩
    rw [decide_eq_true h1, decide_eq_true h2]
    rfl
  · intro hno
    by_cases hA : bassLevel freq > 0.8 * ema + 0.2 * bassLevel freq + 35
    · have hB : ¬ (now - lastBeat > 180) := fun hB => hno ⟨hA, hB⟩
      rw [decide_eq_false hB, Bool.and_false]
      rfl
    · rw [decide_eq_false hA, Bool.false_and]
      rfl
  · intro he
    rw [he,
      decide_eq_false (show ¬ (ema > 0.8 * ema + 0.2 * ema + 35) by intro hcon; linarith),
      Bool.false_and]
  · intro hle
    rw [decide_eq_false (show ¬ (now - lastBeat > 180) from not_lt.mpr hle), Bool.and_false]
  · intro he hgt
    rw [he,
      decide_eq_true (show ema + 44 > 0.8 * ema + 0.2 * (ema + 44) + 35 by linarith),
      decide_eq_true hgt]
    rfl

/-- C1 witness: the amended beat-detector facts at a concrete tick. -/
theorem C1_witness :
    (analyzeAudio (some 128) (List.replicate 128 44) (List.replicate 128 128) 0 0 1000).map
        (fun r => r.bassEmaAfter)
        = some (0.8 * 0 + 0.2 * bassLevel (List.replicate 128 44)) ∧
    (analyzeAudio (some 128) (List.replicate 128 44) (List.replicate 128 128) 0 0 1000).map
        (fun r => r.data.beat)
        = some (decide (bassLevel (List.replicate 128 44)
              > 0.8 * 0 + 0.2 * bassLevel (List.replicate 128 44) + 35)
            && decide ((1000 : ℚ) - 0 > 180)) ∧
    ((bassLevel (List.replicate 128 44)
          > 0.8 * 0 + 0.2 * bassLevel (List.replicate 128 44) + 35 ∧ (1000 : ℚ) - 0 > 180) →
      (analyzeAudio (some 128) (List.replicate 128 44) (List.replicate 128 128) 0 0 1000).map
        (fun r => r.lastBeatAfter) = some 1000) ∧
    (¬ (bassLevel (List.replicate 128 44)
          > 0.8 * 0 + 0.2 * bassLevel (List.replicate 128 44) + 35 ∧ (1000 : ℚ) - 0 > 180) →
      (analyzeAudio (some 128) (List.replicate 128 44) (List.replicate 128 128) 0 0 1000).map
        (fun r => r.lastBeatAfter) = some 0) ∧
    (bassLevel (List.replicate 128 44) = 0 →
      (analyzeAudio (some 128) (List.replicate 128 44) (List.replicate 128 128) 0 0 1000).map
        (fun r => r.data.beat) = some false) ∧
    ((1000 : ℚ) - 0 ≤ 180 →
      (analyzeAudio (some 128) (List.replicate 128 44) (List.replicate 128 128) 0 0 1000).map
        (fun r => r.data.beat) = some false) ∧
    (bassLevel (List.replicate 128 44) = 0 + 44 → (180 : ℚ) < 1000 - 0 →
      (analyzeAudio (some 128) (List.replicate 128 44) (List.replicate 128 128) 0 0 1000).map
        (fun r => r.data.beat) = some true) :=
  C1_beat_detector 128 (List.replicate 128 44) (List.replicate 128 128) 0 0 1000

/-- C2 counterexample: a microphone acquisition failure is logged to the
console only — the user-facing error message stays empty — and the
zero-audio-track shared-display selection produces the generic retry
message rather than a no-audio-available one (the descriptive thrown
message reaches only the console log); so not every acquisition failure
is surfaced to the user as the claim states. -/
theorem C2_counterexample :
    initMicrophone (AcqResult.err "NotAllowedError") initialState = initialState ∧
    (initMicrophone (AcqResult.err "NotAllowedError") initialState).errorMsg = "" ∧
    (initSystemAudio (AcqResult.ok 0) initialState).errorMsg = sysGenericMsg ∧
    (initSystemAudio (AcqResult.ok 0) initialState).isPlaying = false ∧
    (initSystemAudio (AcqResult.ok 0) initialState).audioStreamTracks = none ∧
    sysGenericMsg = "Failed to access system audio. Please try again." :=
  ⟨rfl, rfl, rfl, rfl, rfl, rfl⟩

/-- C2 amended: from a stopped clean session, a failed microphone
acquisition changes nothing (the failure is only logged); a failed
system-audio acquisition writes a descriptive message (specific for
`NotSupportedError`, generic otherwise) and a zero-audio-track selection
writes the generic message; in every failure case the session stays
stopped, no capture handle is retained and no partial session is
created. -/
theorem C2_acquisition_failure (s : AppState) (name : String)
    (hp : s.isPlaying = false) (hstream : s.audioStreamTracks = none)
    (hsrc : s.sourceType = none) (han : s.analyser = none) :
    initMicrophone (AcqResult.err name) s = s ∧
    (initSystemAudio (AcqResult.err name) s).isPlaying = false ∧
    (initSystemAudio (AcqResult.err name) s).audioStreamTracks = none ∧
    (initSystemAudio (AcqResult.err name) s).sourceType = none ∧
    (initSystemAudio (AcqResult.err name) s).analyser = none ∧
    (initSystemAudio (AcqResult.err name) s).errorMsg
        = (if name = "NotSupportedError" then sysNotSupportedMsg else sysGenericMsg) ∧
    (initSystemAudio (AcqResult.ok 0) s).isPlaying = false ∧
    (initSystemAudio (AcqResult.ok 0) s).audioStreamTracks = none ∧
    (initSystemAudio (AcqResult.ok 0) s).sourceType = none ∧
    (initSystemAudio (AcqResult.ok 0) s).analyser = none ∧
    (initSystemAudio (AcqResult.ok 0) s).errorMsg = sysGenericMsg :=
  ⟨rfl, hp, hstream, hsrc, han, rfl, hp, hstream, hsrc, han, rfl⟩

/-- C2 witness: the failure behavior evaluated on the initial state and
a concrete rejection. -/
theorem C2_witness :
    initMicrophone (AcqResult.err "NotAllowedError") initialState = initialState ∧
    (initSystemAudio (AcqResult.err "NotAllowedError") initialState).isPlaying = false ∧
    (initSystemAudio (AcqResult.err "NotAllowedError") initialState).audioStreamTracks
        = none ∧
    (initSystemAudio (AcqResult.err "NotAllowedError") initialState).sourceType = none ∧
    (initSystemAudio (AcqResult.err "NotAllowedError") initialState).analyser = none ∧
    (initSystemAudio (AcqResult.err "NotAllowedError") initialState).errorMsg
        = (if "NotAllowedError" = "NotSupportedError" then sysNotSupportedMsg
            else sysGenericMsg) ∧
    (initSystemAudio (AcqResult.ok 0) initialState).isPlaying = false ∧
    (initSystemAudio (AcqResult.ok 0) initialState).audioStreamTracks = none ∧
    (initSystemAudio (AcqResult.ok 0) initialState).sourceType = none ∧
    (initSystemAudio (AcqResult.ok 0) initialState).analyser = none ∧
    (initSystemAudio (AcqResult.ok 0) initialState).errorMsg = sysGenericMsg :=
  C2_acquisition_failure initialState "NotAllowedError" rfl rfl rfl rfl

/-- C3 counterexample: a callback with the session active but no
analyser installed returns early without rescheduling, so it is not true
that every callback while the session is active runs the pipeline and
reschedules. -/
theorem C3_counterexample :
    ({ initialState with isPlaying := true } : AppState).isPlaying = true ∧
    (animate (some { hasCtx := true, width := 800, height := 400 })
        (List.replicate 128 0) (List.replicate 128 128) 1000 (fun _ => ⟨0, 0, 0, 0⟩)
        { initialState with isPlaying := true }).2 = false :=
  ⟨rfl, rfl⟩

/-- C3 amended: when the sampler yields no data (no analyser installed)
the callback leaves the entire state unchanged — no error, no message,
no state change — but it also does not reschedule, so the loop goes
dormant rather than skipping one tick; the full pipeline runs and the
next tick is rescheduled exactly on callbacks where the session is
active, a 2D context is available and the sampler returns data.  The
five conjuncts cover every case of a callback: missing analyser,
inactive session, missing 2D context and missing canvas each change
nothing and do not reschedule, while in the remaining case — active
session, context available, sampler data present — the callback commits
the EMA and beat timestamp, spawns on a beat, advances and culls the
particles, advances both smoothing series, and reschedules. -/
theorem C3_tick_pipeline (cv : Canvas) (freq wave : List ℕ) (now : ℚ)
    (draws : ℕ → RandDraw) (s : AppState) :
    (s.analyser = none → animate (some cv) freq wave now draws s = (s, false)) ∧
    (s.isPlaying = false → animate (some cv) freq wave now draws s = (s, false)) ∧
    (cv.hasCtx = false → animate (some cv) freq wave now draws s = (s, false)) ∧
    (animate none freq wave now draws s = (s, false)) ∧
    (∀ r, s.isPlaying = true → cv.hasCtx = true →
      analyzeAudio s.analyser freq wave s.bassEma s.lastBeatTs now = some r →
      animate (some cv) freq wave now draws s
        = (drawPhase
            { s with
              bassEma := r.bassEmaAfter
              lastBeatTs := r.lastBeatAfter
              particles := updateParticles
                (if r.data.beat then s.particles ++ spawnBurst cv.width cv.height draws
                 else s.particles) }
            r.data cv.height, true)) := by
  refine ⟨?_, ?_, ?_, rfl, ?_⟩
  · intro h
    unfold animate
    rw [h]
    cases hp : s.isPlaying <;> cases hc : cv.hasCtx <;> simp [analyzeAudio]
  · intro h
    unfold animate
    rw [h]
    simp
  · intro h
    simp only [animate]
    rw [h]
    cases hp : s.isPlaying <;> simp [hp]
  · intro r hp hc hr
    simp only [animate]
    rw [hp, hc, hr]
    by_cases hb : r.data.beat
    · simp [hb]
    · simp [hb]

/-- C3 witness: the callback behavior evaluated on concrete states. -/
theorem C3_witness :
    (initialState.analyser = none →
      animate (some { hasCtx := true, width := 800, height := 400 }) [] [] 0
        (fun _ => ⟨0, 0, 0, 0⟩) initialState = (initialState, false)) ∧
    (initialState.isPlaying = false →
      animate (some { hasCtx := true, width := 800, height := 400 }) [] [] 0
        (fun _ => ⟨0, 0, 0, 0⟩) initialState = (initialState, false)) ∧
    (({ hasCtx := true, width := 800, height := 400 } : Canvas).hasCtx = false →
      animate (some { hasCtx := true, width := 800, height := 400 }) [] [] 0
        (fun _ => ⟨0, 0, 0, 0⟩) initialState = (initialState, false)) ∧
    (animate none [] [] 0 (fun _ => ⟨0, 0, 0, 0⟩) initialState = (initialState, false)) ∧
    (∀ r, initialState.isPlaying = true →
      ({ hasCtx := true, width := 800, height := 400 } : Canvas).hasCtx = true →
      analyzeAudio initialState.analyser [] [] initialState.bassEma initialState.lastBeatTs 0
        = some r →
      animate (some { hasCtx := true, width := 800, height := 400 }) [] [] 0
        (fun _ => ⟨0, 0, 0, 0⟩) initialState
        = (drawPhase
            { initialState with
              bassEma := r.bassEmaAfter
              lastBeatTs := r.lastBeatAfter
              particles := updateParticles
                (if r.data.beat then
                  initialState.particles ++ spawnBurst 800 400 (fun _ => ⟨0, 0, 0, 0⟩)
                 else initialState.particles) }
            r.data 400, true)) :=
  C3_tick_pipeline { hasCtx := true, width := 800, height := 400 } [] [] 0
    (fun _ => ⟨0, 0, 0, 0⟩) initialState

/-- C4 counterexample: the draw calls do mutate analysis state — the
bars draw advances the persistent smoothed bar series (here from `[0]`
to `[8]`), because the smoothing filter is fused into the renderer. -/
theorem C4_counterexample :
    ({ initialState with prevBarHeights := [(0 : ℚ)] } : AppState).prevBarHeights
        = [(0 : ℚ)] ∧
    (drawPhase { initialState with prevBarHeights := [(0 : ℚ)] }
        { frequencies := [255], waveform := [], bassLevel := 0, midLevel := 0,
          trebleLevel := 0, beat := false } 100).prevBarHeights = [(8 : ℚ)] ∧
    [(8 : ℚ)] ≠ [(0 : ℚ)] := by
  refine ⟨rfl, ?_, by norm_num⟩
  show drawBarsUpdate [(0 : ℚ)] [255] 100 = [(8 : ℚ)]
  have ht : barTarget [255] 100 0 = 70 := by
    norm_num [barTarget]
  simp only [drawBarsUpdate, loopBars, List.length_cons, List.length_nil]
  norm_num [ht, min_def, max_def]

/-- C4 amended: the draw calls never touch the band levels, the beat
state, the particle collection, the session state or the user message;
their only state effect beyond the raster surface is advancing the two
persistent smoothing series. -/
theorem C4_renderer_effects (s : AppState) (data : VisualizerData) (height : ℚ) :
    (drawPhase s data height).bassEma = s.bassEma ∧
    (drawPhase s data height).lastBeatTs = s.lastBeatTs ∧
    (drawPhase s data height).particles = s.particles ∧
    (drawPhase s data height).isPlaying = s.isPlaying ∧
    (drawPhase s data height).audioStreamTracks = s.audioStreamTracks ∧
    (drawPhase s data height).sourceType = s.sourceType ∧
    (drawPhase s data height).errorMsg = s.errorMsg ∧
    (drawPhase s data height).analyser = s.analyser ∧
    (drawPhase s data height).prevBarHeights
        = drawBarsUpdate s.prevBarHeights data.frequencies height ∧
    (drawPhase s data height).prevWave
        = drawWaveformUpdate s.prevWave data.waveform height :=
  ⟨rfl, rfl, rfl, rfl, rfl, rfl, rfl, rfl, rfl, rfl⟩

/-- C4 witness: the draw-phase state effects at a concrete state. -/
theorem C4_witness :
    (drawPhase initialState
        { frequencies := [], waveform := [], bassLevel := 0, midLevel := 0,
          trebleLevel := 0, beat := false } 100).bassEma = initialState.bassEma ∧
    (drawPhase initialState
        { frequencies := [], waveform := [], bassLevel := 0, midLevel := 0,
          trebleLevel := 0, beat := false } 100).lastBeatTs = initialState.lastBeatTs ∧
    (drawPhase initialState
        { frequencies := [], waveform := [], bassLevel := 0, midLevel := 0,
          trebleLevel := 0, beat := false } 100).particles = initialState.particles ∧
    (drawPhase initialState
        { frequencies := [], waveform := [], bassLevel := 0, midLevel := 0,
          trebleLevel := 0, beat := false } 100).isPlaying = initialState.isPlaying ∧
    (drawPhase initialState
        { frequencies := [], waveform := [], bassLevel := 0, midLevel := 0,
          trebleLevel := 0, beat := false } 100).audioStreamTracks
        = initialState.audioStreamTracks ∧
    (drawPhase initialState
        { frequencies := [], waveform := [], bassLevel := 0, midLevel := 0,
          trebleLevel := 0, beat := false } 100).sourceType = initialState.sourceType ∧
    (drawPhase initialState
        { frequencies := [], waveform := [], bassLevel := 0, midLevel := 0,
          trebleLevel := 0, beat := false } 100).errorMsg = initialState.errorMsg ∧
    (drawPhase initialState
        { frequencies := [], waveform := [], bassLevel := 0, midLevel := 0,
          trebleLevel := 0, beat := false } 100).analyser = initialState.analyser ∧
    (drawPhase initialState
        { frequencies := [], waveform := [], bassLevel := 0, midLevel := 0,
          trebleLevel := 0, beat := false } 100).prevBarHeights
        = drawBarsUpdate initialState.prevBarHeights [] 100 ∧
    (drawPhase initialState
        { frequencies := [], waveform := [], bassLevel := 0, midLevel := 0,
          trebleLevel := 0, beat := false } 100).prevWave
        = drawWaveformUpdate initialState.prevWave [] 100 :=
  C4_renderer_effects initialState
    { frequencies := [], waveform := [], bassLevel := 0, midLevel := 0,
      trebleLevel := 0, beat := false } 100

end NeonViz
